import Mathlib

/-
Verification of the single-file ImageNet training script (src/script.py).

The script is modelled shallowly:
- tensors of class scores become `List (List ℚ)` (one score row per example),
  integer label tensors become `List ℕ`;
- the neural network, the loss function and the SGD update are abstract external
  collaborators, passed in as plain functions;
- machine floats are idealised as exact rationals `ℚ`;
- Python division, which raises `ZeroDivisionError` on a zero denominator,
  becomes an `Option`-valued division `pyDiv`;
- the `train` and `validate` loop bodies and the epoch loop of `main` are
  translated statement by statement, recording the observable actions
  (mode switches, forward passes, gradient operations, print statements)
  in an explicit event trace.
-/

/-! ### Top-k selection (torch.topk on one score row)

`output.topk(maxk, 1, True, True)` returns, for each row, the indices of the
`maxk` largest scores, sorted by score descending.  Ties are broken by the
underlying sort; we fix the tie-break "earlier index first", which makes the
selection a total order: index `i` precedes index `j` when the score of `i`
is larger, or the scores are equal and `i ≤ j`. -/

def rankLe (scores : List ℚ) (i j : ℕ) : Prop :=
  scores.getD j 0 < scores.getD i 0 ∨ (scores.getD i 0 = scores.getD j 0 ∧ i ≤ j)

instance rankLe.decRel (scores : List ℚ) : DecidableRel (rankLe scores) := by
  intro i j
  unfold rankLe
  infer_instance

/-- All class indices of a score row, ordered by score descending
(ties: earlier index first). -/
def sortedIdx (scores : List ℚ) : List ℕ :=
  List.insertionSort (rankLe scores) (List.range scores.length)

/-- The indices of the `k` highest-scored classes of one score row:
the per-row content of `output.topk(k, 1, True, True)`. -/
def topkIndices (k : ℕ) (scores : List ℚ) : List ℕ :=
  (sortedIdx scores).take k

/-- Model of `pred.t()`: transpose of a rectangular `B × cols` index matrix into a
`cols × B` matrix, element `(r, i)` of the result being element `(i, r)` of
the argument. -/
def tTranspose (cols : ℕ) (m : List (List ℕ)) : List (List ℕ) :=
  (List.range cols).map (fun r => m.map (fun row => row.getD r 0))

/-- The `accuracy` function of src/script.py, lines 34-48: per requested `k`,
take the `maxk` top predictions of every row, transpose, compare with the
broadcast target row, keep the first `k` rows of the comparison matrix,
count the `True` entries, and scale by `100 / batch_size`. -/
def accuracy (output : List (List ℚ)) (target : List ℕ) (ks : List ℕ) : List ℚ :=
  let maxk := ks.foldr max 0
  let batch_size := target.length
  let pred := output.map (topkIndices maxk)
  let predT := tTranspose maxk pred
  let correct := predT.map (fun prow => List.zipWith (fun p t => p == t) prow target)
  ks.map (fun k =>
    (((correct.take k).flatten.countP id : ℚ)) * (100 / (batch_size : ℚ)))

/-- Modelled from the spec, section 4.3: the number of examples of the batch
whose true label appears among the `k` highest-scored predicted class
indices. -/
def topkCorrectCount (k : ℕ) (output : List (List ℚ)) (target : List ℕ) : ℕ :=
  (output.zip target).countP (fun c => decide (c.2 ∈ topkIndices k c.1))

/-! ### Helper lemmas about the top-k pipeline -/

theorem sortedIdx_length (scores : List ℚ) : (sortedIdx scores).length = scores.length := by
  unfold sortedIdx
  rw [(List.perm_insertionSort (rankLe scores) (List.range scores.length)).length_eq,
    List.length_range]

theorem sortedIdx_nodup (scores : List ℚ) : (sortedIdx scores).Nodup :=
  (List.perm_insertionSort (rankLe scores) (List.range scores.length)).nodup_iff.mpr
    (List.nodup_range _)

theorem topkIndices_nodup (k : ℕ) (scores : List ℚ) : (topkIndices k scores).Nodup :=
  (List.take_sublist _ _).nodup (sortedIdx_nodup scores)

theorem topkIndices_length (k : ℕ) (scores : List ℚ) :
    (topkIndices k scores).length = min k scores.length := by
  unfold topkIndices
  rw [List.length_take, sortedIdx_length]

theorem topkIndices_take (k maxk : ℕ) (hk : k ≤ maxk) (scores : List ℚ) :
    (topkIndices maxk scores).take k = topkIndices k scores := by
  unfold topkIndices
  rw [List.take_take, Nat.min_eq_left hk]

theorem map_getD_range (l : List ℕ) (k : ℕ) (hk : k ≤ l.length) :
    (List.range k).map (fun r => l.getD r 0) = l.take k := by
  induction k with
  | zero => simp
  | succ n ih =>
    have hn : n < l.length := Nat.lt_of_lt_of_le (Nat.lt_succ_self n) hk
    rw [List.range_succ, List.map_append, ih (Nat.le_of_lt hn), List.take_succ]
    simp [List.getElem?_eq_getElem hn, List.getD]

theorem countP_eq_sum_map {α : Type} (p : α → Bool) (l : List α) :
    l.countP p = (l.map (fun x => if p x then 1 else 0)).sum := by
  induction l with
  | nil => simp
  | cons a l ih => rw [List.countP_cons, List.map_cons, List.sum_cons, ih]; omega

theorem sum_map_add {α : Type} (f g : α → ℕ) (l : List α) :
    (l.map (fun x => f x + g x)).sum = (l.map f).sum + (l.map g).sum := by
  induction l with
  | nil => simp
  | cons a l ih => simp [ih]; omega

theorem sum_map_swap {α β : Type} (rs : List β) (l : List α) (f : β → α → ℕ) :
    (rs.map (fun r => (l.map (f r)).sum)).sum
      = (l.map (fun x => (rs.map (fun r => f r x)).sum)).sum := by
  induction rs with
  | nil => simp
  | cons r rs ih =>
    have hR : (l.map (fun x => ((r :: rs).map (fun r => f r x)).sum)).sum
        = (l.map (fun x => f r x + (rs.map (fun r => f r x)).sum)).sum := by
      simp
    rw [List.map_cons, List.sum_cons, ih, hR, sum_map_add]

theorem countP_zipWith {α β : Type} (f : α → β → Bool) (a : List α) (b : List β) :
    (List.zipWith f a b).countP id = (a.zip b).countP (fun x => f x.1 x.2) := by
  induction a generalizing b with
  | nil => simp
  | cons x a ih =>
    cases b with
    | nil => simp
    | cons y b => simp [List.countP_cons, ih]

theorem countP_range_topk (o : List ℚ) (t k maxk : ℕ) (hk : k ≤ maxk)
    (ho : maxk ≤ o.length) :
    (List.range k).countP (fun r => (topkIndices maxk o).getD r 0 == t)
      = if t ∈ topkIndices k o then 1 else 0 := by
  have hlen : k ≤ (topkIndices maxk o).length := by
    rw [topkIndices_length]; omega
  have h1 : (fun r => (topkIndices maxk o).getD r 0 == t)
      = ((fun x => x == t) ∘ (fun r => (topkIndices maxk o).getD r 0)) := rfl
  rw [h1, ← List.countP_map, map_getD_range _ _ hlen, topkIndices_take k maxk hk]
  have h2 : (topkIndices k o).countP (fun x => x == t) = (topkIndices k o).count t := rfl
  rw [h2]
  by_cases hm : t ∈ topkIndices k o
  · rw [List.count_eq_one_of_mem (topkIndices_nodup k o) hm, if_pos hm]
  · rw [List.count_eq_zero.mpr hm, if_neg hm]

/-- Core counting identity: the matrix pipeline of `accuracy` (top-k, transpose,
elementwise comparison, row slice, flatten, sum) counts exactly the examples
whose true label occurs among their `k` top predictions. -/
theorem accuracy_count (output : List (List ℚ)) (target : List ℕ) (maxk k : ℕ)
    (hk : k ≤ maxk) (hrows : ∀ row ∈ output, maxk ≤ row.length) :
    ((((tTranspose maxk (output.map (topkIndices maxk))).map
        (fun prow => List.zipWith (fun p t => p == t) prow target)).take k).flatten.countP id)
      = topkCorrectCount k output target := by
  have key : ∀ r : ℕ,
      (List.zipWith (fun p t => p == t)
          ((output.map (topkIndices maxk)).map (fun row => row.getD r 0)) target).countP id
        = ((output.zip target).map
            (fun x => if (topkIndices maxk x.1).getD r 0 == x.2 then 1 else 0)).sum := by
    intro r
    rw [List.zipWith_map_left, List.zipWith_map_left, countP_zipWith, countP_eq_sum_map]
  rw [← List.map_take]
  unfold tTranspose
  rw [← List.map_take, List.take_range, Nat.min_eq_left hk, List.countP_flatten,
    List.map_map, List.map_map]
  show (List.map (fun r =>
      (List.zipWith (fun p t => p == t)
        ((output.map (topkIndices maxk)).map (fun row => row.getD r 0)) target).countP id)
      (List.range k)).sum = topkCorrectCount k output target
  have hmap : List.map (fun r =>
        (List.zipWith (fun p t => p == t)
          ((output.map (topkIndices maxk)).map (fun row => row.getD r 0)) target).countP id)
        (List.range k)
      = List.map (fun r => ((output.zip target).map
          (fun x => if (topkIndices maxk x.1).getD r 0 == x.2 then 1 else 0)).sum)
        (List.range k) :=
    List.map_congr_left (fun r _ => key r)
  rw [hmap]
  have h2 : (List.map (fun r => ((output.zip target).map
        (fun x => if (topkIndices maxk x.1).getD r 0 == x.2 then 1 else 0)).sum)
        (List.range k)).sum
      = ((output.zip target).map (fun x => ((List.range k).map
          (fun r => if (topkIndices maxk x.1).getD r 0 == x.2 then 1 else 0)).sum)).sum :=
    sum_map_swap _ _ _
  rw [h2]
  have hrow : ∀ x, x ∈ output.zip target →
      ((List.range k).map
          (fun r => if (topkIndices maxk x.1).getD r 0 == x.2 then 1 else 0)).sum
        = if decide (x.2 ∈ topkIndices k x.1) then 1 else 0 := by
    intro x hx
    rw [← countP_eq_sum_map, countP_range_topk x.1 x.2 k maxk hk
      (hrows x.1 (List.of_mem_zip hx).1)]
    simp
  rw [List.map_congr_left hrow, ← countP_eq_sum_map]
  rfl

theorem le_foldr_max (ks : List ℕ) (k : ℕ) (hk : k ∈ ks) : k ≤ ks.foldr max 0 := by
  induction ks with
  | nil => cases hk
  | cons a ks ih =>
    rw [List.foldr_cons]
    rcases List.mem_cons.mp hk with h | h
    · exact h ▸ Nat.le_max_left _ _
    · exact Nat.le_trans (ih h) (Nat.le_max_right _ _)

/-- The `accuracy` function equals, entry by entry, the per-k percentage
`(number of examples whose label is in the top k) / batch_size * 100`. -/
theorem accuracy_eq_topk_counts (output : List (List ℚ)) (target : List ℕ) (ks : List ℕ)
    (hrows : ∀ row ∈ output, ks.foldr max 0 ≤ row.length) :
    accuracy output target ks
      = ks.map (fun k =>
          ((topkCorrectCount k output target : ℚ) / (target.length : ℚ)) * 100) := by
  show ks.map (fun k =>
      (((((tTranspose (ks.foldr max 0) (output.map (topkIndices (ks.foldr max 0)))).map
        (fun prow => List.zipWith (fun p t => p == t) prow target)).take k).flatten.countP id
          : ℚ)) * (100 / (target.length : ℚ))) = _
  refine List.map_congr_left (fun k hk => ?_)
  rw [accuracy_count output target (ks.foldr max 0) k (le_foldr_max ks k hk) hrows]
  ring

/-- Claim C3: for every batch with at least one example and every requested `k`
(the requested values not exceeding the number of classes of any score row),
the accuracy function returns one result per requested `k`, and that result is
(count of examples whose true label appears among the k highest-scored
predicted class indices) / batch_size * 100. -/
theorem c3_accuracy_per_k (output : List (List ℚ)) (target : List ℕ) (ks : List ℕ)
    (hB : 1 ≤ target.length) (hlen : output.length = target.length)
    (hrows : ∀ row ∈ output, ks.foldr max 0 ≤ row.length) :
    accuracy output target ks
      = ks.map (fun k =>
          ((topkCorrectCount k output target : ℚ) / (target.length : ℚ)) * 100) :=
  accuracy_eq_topk_counts output target ks hrows

theorem c3_accuracy_per_k_witness :
    1 ≤ ([4, 3] : List ℕ).length
    ∧ ([[1, 2, 3, 4, 5], [9, 8, 7, 6, 5]] : List (List ℚ)).length = ([4, 3] : List ℕ).length
    ∧ (∀ row ∈ ([[1, 2, 3, 4, 5], [9, 8, 7, 6, 5]] : List (List ℚ)),
        ([1, 5] : List ℕ).foldr max 0 ≤ row.length)
    ∧ accuracy [[1, 2, 3, 4, 5], [9, 8, 7, 6, 5]] [4, 3] [1, 5]
      = [1, 5].map (fun k =>
          ((topkCorrectCount k [[1, 2, 3, 4, 5], [9, 8, 7, 6, 5]] [4, 3] : ℚ)
            / (([4, 3] : List ℕ).length : ℚ)) * 100) :=
  ⟨by decide, by decide, by decide,
    c3_accuracy_per_k [[1, 2, 3, 4, 5], [9, 8, 7, 6, 5]] [4, 3] [1, 5]
      (by decide) (by decide) (by decide)⟩

/-! ### Learning-rate schedule (src/script.py, lines 27-31)

The optimizer is modelled by the only piece of its state the script touches:
its list of parameter groups, each carrying the hyperparameters the script
constructs it with (`lr`, `momentum`, `weight_decay`). -/

structure ParamGroup where
  lr : ℚ
  momentum : ℚ
  weightDecay : ℚ
deriving DecidableEq

structure Optimizer where
  paramGroups : List ParamGroup
deriving DecidableEq

/-- The learning rate computed at line 29: `0.01 * (0.1 ** (epoch // 30))`. -/
def lrValue (epoch : ℕ) : ℚ :=
  (0.01 : ℚ) * (0.1 : ℚ) ^ (epoch / 30)

/-- Function `adjust_learning_rate` (lines 27-31): compute the decayed rate and write it
into every parameter group of the optimizer. -/
def adjust_learning_rate (optimizer : Optimizer) (epoch : ℕ) : Optimizer :=
  { optimizer with
    paramGroups := optimizer.paramGroups.map (fun g => { g with lr := lrValue epoch }) }

/-- Claim C2: the schedule is `rate(e) = 0.01 * 0.1 ^ (e / 30)` with the stated
decay-boundary values, and `adjust_learning_rate` assigns the computed rate to
every parameter group of the optimizer uniformly. -/
theorem c2_learning_rate_schedule :
    (∀ e : ℕ, lrValue e = (0.01 : ℚ) * (0.1 : ℚ) ^ (e / 30))
    ∧ lrValue 0 = (0.01 : ℚ) ∧ lrValue 29 = (0.01 : ℚ) ∧ lrValue 30 = (0.001 : ℚ)
    ∧ lrValue 60 = (0.0001 : ℚ) ∧ lrValue 89 = (0.0001 : ℚ) ∧ lrValue 90 = (0.00001 : ℚ)
    ∧ (∀ (optimizer : Optimizer) (e : ℕ),
        ∀ g ∈ (adjust_learning_rate optimizer e).paramGroups, g.lr = lrValue e) := by
  refine ⟨fun e => rfl, ?_, ?_, ?_, ?_, ?_, ?_, ?_⟩
  · norm_num [lrValue]
  · norm_num [lrValue]
  · norm_num [lrValue]
  · norm_num [lrValue]
  · norm_num [lrValue]
  · norm_num [lrValue]
  · intro optimizer e g hg
    unfold adjust_learning_rate at hg
    obtain ⟨g0, _, rfl⟩ := List.mem_map.mp hg
    rfl

/-- The optimizer as constructed at lines 147-149:
`torch.optim.SGD(model.parameters(), 0.01, momentum=0.9, weight_decay=1e-4)`
has a single parameter group. -/
def optSGD : Optimizer :=
  { paramGroups := [{ lr := 0.01, momentum := 0.9, weightDecay := 0.0001 }] }

theorem c2_learning_rate_schedule_witness :
    ({ lr := lrValue 30, momentum := 0.9, weightDecay := 0.0001 } : ParamGroup)
      ∈ (adjust_learning_rate optSGD 30).paramGroups
    ∧ ({ lr := lrValue 30, momentum := 0.9, weightDecay := 0.0001 } : ParamGroup).lr
      = lrValue 30 :=
  ⟨List.mem_singleton.mpr rfl,
    c2_learning_rate_schedule.2.2.2.2.2.2.2 optSGD 30 _ (List.mem_singleton.mpr rfl)⟩

/-! ### The two pass bodies: `train` (lines 51-81) and `validate` (lines 83-111)

The model is a parameter bundle `P` plus a train/eval mode flag; the network
forward pass, the loss function and the effect of one
`zero_grad / backward / step` sequence on the parameters are abstract external
collaborators.  Each pass keeps the three per-batch metric lists of the script
and an event trace of its observable actions.  Python division (used for the
running means inside `print`) raises on a zero denominator, hence the
`Option`-valued `pyDiv`; a `none` result of a pass is an uncaught
`ZeroDivisionError`. -/

def pyDiv (a b : ℚ) : Option ℚ :=
  if b = 0 then none else some (a / b)

/-- Expression `sum(xs) / float(len(xs))`, the running mean the script computes from each
metric list. -/
def runningMean (xs : List ℚ) : Option ℚ :=
  pyDiv xs.sum (xs.length : ℚ)

inductive Mode where
  | training
  | evalMode
deriving DecidableEq

structure ModelState (P : Type) where
  params : P
  mode : Mode
deriving DecidableEq

/-- The external collaborators: network forward pass, loss, and the parameter
update performed by one `zero_grad(); backward(); step()` sequence. -/
structure Collab (P I : Type) where
  forward : P → I → List (List ℚ)
  criterion : List (List ℚ) → List ℕ → ℚ
  sgdStep : Optimizer → P → I → List ℕ → P

/-- Observable actions of a pass, in program order. -/
inductive Ev where
  | setMode (m : Mode)
  | forwardEv
  | zeroGradEv
  | backwardEv
  | stepEv
  | trainLine (epoch i total : ℕ) (loss lossAvg a1 a1Avg a5 a5Avg : ℚ)
  | valLine (i total : ℕ) (loss lossAvg a1 a1Avg a5 a5Avg : ℚ)
  | summaryLine (a1Avg a5Avg : ℚ)
deriving DecidableEq

structure PassState (P : Type) where
  model : ModelState P
  losses : List ℚ
  top1 : List ℚ
  top5 : List ℚ
  events : List Ev
deriving DecidableEq

/-- State at the top of a pass: mode switched (`model.train()` resp.
`model.eval()`), the three metric lists created empty. -/
def initPass {P : Type} (m : ModelState P) (md : Mode) : PassState P :=
  { model := { m with mode := md }, losses := [], top1 := [], top5 := [],
    events := [Ev.setMode md] }

/-- One iteration of the `train` loop body (lines 58-80). -/
def trainStep {P I : Type} (C : Collab P I) (optimizer : Optimizer)
    (epoch total i : ℕ) (b : I × List ℕ) (st : PassState P) : Option (PassState P) :=
  let output := C.forward st.model.params b.1
  let loss := C.criterion output b.2
  let losses := st.losses ++ [loss]
  let accs := accuracy output b.2 [1, 5]
  let acc1 := accs.getD 0 0
  let acc5 := accs.getD 1 0
  let top1 := st.top1 ++ [acc1]
  let top5 := st.top5 ++ [acc5]
  let params := C.sgdStep optimizer st.model.params b.1 b.2
  let evs := st.events ++ [Ev.forwardEv, Ev.zeroGradEv, Ev.backwardEv, Ev.stepEv]
  if i % 10 = 0 then
    match runningMean losses, runningMean top1, runningMean top5 with
    | some lossAvg, some a1Avg, some a5Avg =>
        some { model := { st.model with params := params }, losses := losses,
               top1 := top1, top5 := top5,
               events := evs ++ [Ev.trainLine epoch i total loss lossAvg acc1 a1Avg acc5 a5Avg] }
    | _, _, _ => none
  else
    some { model := { st.model with params := params }, losses := losses,
           top1 := top1, top5 := top5, events := evs }

/-- Total version of `trainStep`; `trainStep` never fails and computes this. -/
def trainStepT {P I : Type} (C : Collab P I) (optimizer : Optimizer)
    (epoch total i : ℕ) (b : I × List ℕ) (st : PassState P) : PassState P :=
  let output := C.forward st.model.params b.1
  let loss := C.criterion output b.2
  let losses := st.losses ++ [loss]
  let accs := accuracy output b.2 [1, 5]
  let acc1 := accs.getD 0 0
  let acc5 := accs.getD 1 0
  let top1 := st.top1 ++ [acc1]
  let top5 := st.top5 ++ [acc5]
  let params := C.sgdStep optimizer st.model.params b.1 b.2
  let evs := st.events ++ [Ev.forwardEv, Ev.zeroGradEv, Ev.backwardEv, Ev.stepEv]
  let evs2 := if i % 10 = 0 then
      evs ++ [Ev.trainLine epoch i total loss (losses.sum / (losses.length : ℚ))
        acc1 (top1.sum / (top1.length : ℚ)) acc5 (top5.sum / (top5.length : ℚ))]
    else evs
  { model := { st.model with params := params }, losses := losses,
    top1 := top1, top5 := top5, events := evs2 }

/-- The `for i, (input, target) in enumerate(train_loader)` loop. -/
def trainLoop {P I : Type} (C : Collab P I) (optimizer : Optimizer) (epoch total : ℕ) :
    List (I × List ℕ) → ℕ → PassState P → Option (PassState P)
  | [], _, st => some st
  | b :: bs, i, st =>
      (trainStep C optimizer epoch total i b st).bind
        (trainLoop C optimizer epoch total bs (i + 1))

def trainLoopT {P I : Type} (C : Collab P I) (optimizer : Optimizer) (epoch total : ℕ) :
    List (I × List ℕ) → ℕ → PassState P → PassState P
  | [], _, st => st
  | b :: bs, i, st =>
      trainLoopT C optimizer epoch total bs (i + 1) (trainStepT C optimizer epoch total i b st)

/-- Function `train(train_loader, model, criterion, optimizer, epoch)`, lines 51-81.
The second component of the result is the Python return value of the function:
`train` has no `return` statement, so it is `none` (Python `None`). -/
def train {P I : Type} (C : Collab P I) (train_loader : List (I × List ℕ))
    (m : ModelState P) (optimizer : Optimizer) (epoch : ℕ) :
    Option (PassState P × Option (ℚ × ℚ × ℚ)) :=
  (trainLoop C optimizer epoch train_loader.length train_loader 0
    (initPass m Mode.training)).map (fun st => (st, none))

/-- One iteration of the `validate` loop body (lines 90-108): no gradient
clearing, no back-propagation, no optimizer step, no parameter change. -/
def validateStep {P I : Type} (C : Collab P I) (total i : ℕ) (b : I × List ℕ)
    (st : PassState P) : Option (PassState P) :=
  let output := C.forward st.model.params b.1
  let loss := C.criterion output b.2
  let losses := st.losses ++ [loss]
  let accs := accuracy output b.2 [1, 5]
  let acc1 := accs.getD 0 0
  let acc5 := accs.getD 1 0
  let top1 := st.top1 ++ [acc1]
  let top5 := st.top5 ++ [acc5]
  let evs := st.events ++ [Ev.forwardEv]
  if i % 10 = 0 then
    match runningMean losses, runningMean top1, runningMean top5 with
    | some lossAvg, some a1Avg, some a5Avg =>
        some { model := st.model, losses := losses, top1 := top1, top5 := top5,
               events := evs ++ [Ev.valLine i total loss lossAvg acc1 a1Avg acc5 a5Avg] }
    | _, _, _ => none
  else
    some { model := st.model, losses := losses, top1 := top1, top5 := top5,
           events := evs }

def validateStepT {P I : Type} (C : Collab P I) (total i : ℕ) (b : I × List ℕ)
    (st : PassState P) : PassState P :=
  let output := C.forward st.model.params b.1
  let loss := C.criterion output b.2
  let losses := st.losses ++ [loss]
  let accs := accuracy output b.2 [1, 5]
  let acc1 := accs.getD 0 0
  let acc5 := accs.getD 1 0
  let top1 := st.top1 ++ [acc1]
  let top5 := st.top5 ++ [acc5]
  let evs := st.events ++ [Ev.forwardEv]
  let evs2 := if i % 10 = 0 then
      evs ++ [Ev.valLine i total loss (losses.sum / (losses.length : ℚ))
        acc1 (top1.sum / (top1.length : ℚ)) acc5 (top5.sum / (top5.length : ℚ))]
    else evs
  { model := st.model, losses := losses, top1 := top1, top5 := top5, events := evs2 }

def validateLoop {P I : Type} (C : Collab P I) (total : ℕ) :
    List (I × List ℕ) → ℕ → PassState P → Option (PassState P)
  | [], _, st => some st
  | b :: bs, i, st =>
      (validateStep C total i b st).bind (validateLoop C total bs (i + 1))

def validateLoopT {P I : Type} (C : Collab P I) (total : ℕ) :
    List (I × List ℕ) → ℕ → PassState P → PassState P
  | [], _, st => st
  | b :: bs, i, st => validateLoopT C total bs (i + 1) (validateStepT C total i b st)

/-- Function `validate(test_loader, model, criterion)`, lines 83-111: run the loop, then
print the final summary line (whose running means divide by the metric-list
lengths), and fall off the end of the function returning Python `None`. -/
def validate {P I : Type} (C : Collab P I) (test_loader : List (I × List ℕ))
    (m : ModelState P) : Option (PassState P × Option (ℚ × ℚ × ℚ)) :=
  (validateLoop C test_loader.length test_loader 0 (initPass m Mode.evalMode)).bind
    (fun st =>
      match runningMean st.top1, runningMean st.top5 with
      | some a1Avg, some a5Avg =>
          some ({ st with events := st.events ++ [Ev.summaryLine a1Avg a5Avg] }, none)
      | _, _ => none)

/-! ### Supporting lemmas about the passes -/

theorem runningMean_of_ne_nil (xs : List ℚ) (h : xs ≠ []) :
    runningMean xs = some (xs.sum / (xs.length : ℚ)) := by
  unfold runningMean pyDiv
  rw [if_neg]
  exact fun h0 => h (List.length_eq_zero.mp (Nat.cast_eq_zero.mp h0))

theorem trainStep_eq {P I : Type} (C : Collab P I) (o : Optimizer) (e t i : ℕ)
    (b : I × List ℕ) (st : PassState P) :
    trainStep C o e t i b st = some (trainStepT C o e t i b st) := by
  by_cases h : i % 10 = 0 <;>
    simp [trainStep, trainStepT, h, runningMean_of_ne_nil]

theorem validateStep_eq {P I : Type} (C : Collab P I) (t i : ℕ)
    (b : I × List ℕ) (st : PassState P) :
    validateStep C t i b st = some (validateStepT C t i b st) := by
  by_cases h : i % 10 = 0 <;>
    simp [validateStep, validateStepT, h, runningMean_of_ne_nil]

theorem trainLoop_eq {P I : Type} (C : Collab P I) (o : Optimizer) (e t : ℕ)
    (bs : List (I × List ℕ)) : ∀ (i : ℕ) (st : PassState P),
    trainLoop C o e t bs i st = some (trainLoopT C o e t bs i st) := by
  induction bs with
  | nil => intro i st; rfl
  | cons b bs ih =>
    intro i st
    simp only [trainLoop, trainLoopT, trainStep_eq, Option.some_bind]
    exact ih _ _

theorem validateLoop_eq {P I : Type} (C : Collab P I) (t : ℕ)
    (bs : List (I × List ℕ)) : ∀ (i : ℕ) (st : PassState P),
    validateLoop C t bs i st = some (validateLoopT C t bs i st) := by
  induction bs with
  | nil => intro i st; rfl
  | cons b bs ih =>
    intro i st
    simp only [validateLoop, validateLoopT, validateStep_eq, Option.some_bind]
    exact ih _ _

theorem trainStepT_proj {P I : Type} (C : Collab P I) (o : Optimizer) (e t i : ℕ)
    (b : I × List ℕ) (st : PassState P) :
    (trainStepT C o e t i b st).losses.length = st.losses.length + 1
    ∧ (trainStepT C o e t i b st).top1.length = st.top1.length + 1
    ∧ (trainStepT C o e t i b st).top5.length = st.top5.length + 1
    ∧ (trainStepT C o e t i b st).model.params = C.sgdStep o st.model.params b.1 b.2
    ∧ (trainStepT C o e t i b st).model.mode = st.model.mode := by
  refine ⟨?_, ?_, ?_, rfl, rfl⟩ <;> simp [trainStepT]

theorem validateStepT_proj {P I : Type} (C : Collab P I) (t i : ℕ)
    (b : I × List ℕ) (st : PassState P) :
    (validateStepT C t i b st).losses.length = st.losses.length + 1
    ∧ (validateStepT C t i b st).top1.length = st.top1.length + 1
    ∧ (validateStepT C t i b st).top5.length = st.top5.length + 1
    ∧ (validateStepT C t i b st).model = st.model := by
  refine ⟨?_, ?_, ?_, rfl⟩ <;> simp [validateStepT]

theorem trainLoopT_lengths {P I : Type} (C : Collab P I) (o : Optimizer) (e t : ℕ)
    (bs : List (I × List ℕ)) : ∀ (i : ℕ) (st : PassState P),
    (trainLoopT C o e t bs i st).losses.length = st.losses.length + bs.length
    ∧ (trainLoopT C o e t bs i st).top1.length = st.top1.length + bs.length
    ∧ (trainLoopT C o e t bs i st).top5.length = st.top5.length + bs.length := by
  induction bs with
  | nil => intro i st; simp [trainLoopT]
  | cons b bs ih =>
    intro i st
    obtain ⟨h1, h2, h3⟩ := ih (i + 1) (trainStepT C o e t i b st)
    obtain ⟨g1, g2, g3, _, _⟩ := trainStepT_proj C o e t i b st
    simp only [trainLoopT, h1, h2, h3, g1, g2, g3, List.length_cons]
    omega

theorem validateLoopT_lengths {P I : Type} (C : Collab P I) (t : ℕ)
    (bs : List (I × List ℕ)) : ∀ (i : ℕ) (st : PassState P),
    (validateLoopT C t bs i st).losses.length = st.losses.length + bs.length
    ∧ (validateLoopT C t bs i st).top1.length = st.top1.length + bs.length
    ∧ (validateLoopT C t bs i st).top5.length = st.top5.length + bs.length := by
  induction bs with
  | nil => intro i st; simp [validateLoopT]
  | cons b bs ih =>
    intro i st
    obtain ⟨h1, h2, h3⟩ := ih (i + 1) (validateStepT C t i b st)
    obtain ⟨g1, g2, g3, _⟩ := validateStepT_proj C t i b st
    simp only [validateLoopT, h1, h2, h3, g1, g2, g3, List.length_cons]
    omega

theorem validateLoopT_model {P I : Type} (C : Collab P I) (t : ℕ)
    (bs : List (I × List ℕ)) : ∀ (i : ℕ) (st : PassState P),
    (validateLoopT C t bs i st).model = st.model := by
  induction bs with
  | nil => intro i st; rfl
  | cons b bs ih =>
    intro i st
    rw [validateLoopT, ih]
    rfl

/-- The per-batch computation/gradient operations of the loop bodies. -/
def coreEv : Ev → Bool
  | Ev.setMode _ => false
  | Ev.forwardEv => true
  | Ev.zeroGradEv => true
  | Ev.backwardEv => true
  | Ev.stepEv => true
  | Ev.trainLine _ _ _ _ _ _ _ _ _ => false
  | Ev.valLine _ _ _ _ _ _ _ _ => false
  | Ev.summaryLine _ _ => false

/-- The three optimizer-related operations: gradient clearing,
back-propagation, optimizer step. -/
def gradEv : Ev → Bool
  | Ev.setMode _ => false
  | Ev.forwardEv => false
  | Ev.zeroGradEv => true
  | Ev.backwardEv => true
  | Ev.stepEv => true
  | Ev.trainLine _ _ _ _ _ _ _ _ _ => false
  | Ev.valLine _ _ _ _ _ _ _ _ => false
  | Ev.summaryLine _ _ => false

theorem trainStepT_filter_core {P I : Type} (C : Collab P I) (o : Optimizer) (e t i : ℕ)
    (b : I × List ℕ) (st : PassState P) :
    (trainStepT C o e t i b st).events.filter coreEv
      = st.events.filter coreEv
          ++ [Ev.forwardEv, Ev.zeroGradEv, Ev.backwardEv, Ev.stepEv] := by
  by_cases h : i % 10 = 0 <;>
    simp [trainStepT, h, List.filter_append, coreEv]

theorem validateStepT_filter_grad {P I : Type} (C : Collab P I) (t i : ℕ)
    (b : I × List ℕ) (st : PassState P) :
    (validateStepT C t i b st).events.filter gradEv = st.events.filter gradEv := by
  by_cases h : i % 10 = 0 <;>
    simp [validateStepT, h, List.filter_append, gradEv]

theorem trainLoopT_filter_core {P I : Type} (C : Collab P I) (o : Optimizer) (e t : ℕ)
    (bs : List (I × List ℕ)) : ∀ (i : ℕ) (st : PassState P),
    (trainLoopT C o e t bs i st).events.filter coreEv
      = st.events.filter coreEv
          ++ (List.replicate bs.length
              [Ev.forwardEv, Ev.zeroGradEv, Ev.backwardEv, Ev.stepEv]).flatten := by
  induction bs with
  | nil => intro i st; simp [trainLoopT]
  | cons b bs ih =>
    intro i st
    rw [trainLoopT, ih, trainStepT_filter_core, List.length_cons, List.replicate_succ,
      List.flatten_cons, List.append_assoc]

theorem validateLoopT_filter_grad {P I : Type} (C : Collab P I) (t : ℕ)
    (bs : List (I × List ℕ)) : ∀ (i : ℕ) (st : PassState P),
    (validateLoopT C t bs i st).events.filter gradEv = st.events.filter gradEv := by
  induction bs with
  | nil => intro i st; rfl
  | cons b bs ih =>
    intro i st
    rw [validateLoopT, ih, validateStepT_filter_grad]

/-- Function `train` never fails, whatever the batch sequence: its only divisions are the
running means printed after the current batch has been appended to each list. -/
theorem train_eq {P I : Type} (C : Collab P I) (bs : List (I × List ℕ))
    (m : ModelState P) (o : Optimizer) (e : ℕ) :
    train C bs m o e
      = some (trainLoopT C o e bs.length bs 0 (initPass m Mode.training), none) := by
  unfold train
  rw [trainLoop_eq]
  rfl

/-- Function `validate` on an empty batch sequence fails: the final summary divides by
the length of the empty top-1 list. -/
theorem validate_nil {P I : Type} (C : Collab P I) (m : ModelState P) :
    validate C ([] : List (I × List ℕ)) m = none := by
  simp [validate, validateLoop, initPass, runningMean, pyDiv]

/-- Function `validate` on a non-empty batch sequence succeeds, returns Python `None`,
and ends by printing the summary line with the running means of the full
top-1 and top-5 lists. -/
theorem validate_run {P I : Type} (C : Collab P I) (bs : List (I × List ℕ))
    (m : ModelState P) (h : bs ≠ []) :
    ∃ st : PassState P,
      validateLoop C bs.length bs 0 (initPass m Mode.evalMode) = some st
      ∧ validate C bs m
          = some ({ st with events := st.events
              ++ [Ev.summaryLine (st.top1.sum / (st.top1.length : ℚ))
                    (st.top5.sum / (st.top5.length : ℚ))] }, none)
      ∧ st.losses.length = bs.length ∧ st.top1.length = bs.length
      ∧ st.top5.length = bs.length ∧ st.model = { m with mode := Mode.evalMode } := by
  obtain ⟨h1, h2, h3⟩ := validateLoopT_lengths C bs.length bs 0 (initPass m Mode.evalMode)
  have hb : bs.length ≠ 0 := fun h0 => h (List.length_eq_zero.mp h0)
  have e1 : (validateLoopT C bs.length bs 0 (initPass m Mode.evalMode)).losses.length
      = bs.length := by rw [h1]; simp [initPass]
  have e2 : (validateLoopT C bs.length bs 0 (initPass m Mode.evalMode)).top1.length
      = bs.length := by rw [h2]; simp [initPass]
  have e3 : (validateLoopT C bs.length bs 0 (initPass m Mode.evalMode)).top5.length
      = bs.length := by rw [h3]; simp [initPass]
  refine ⟨validateLoopT C bs.length bs 0 (initPass m Mode.evalMode), validateLoop_eq _ _ _ _ _,
    ?_, e1, e2, e3, validateLoopT_model C bs.length bs 0 (initPass m Mode.evalMode)⟩
  unfold validate
  rw [validateLoop_eq, Option.some_bind,
    runningMean_of_ne_nil _ (fun hnil => hb (by rw [← e2, hnil]; rfl)),
    runningMean_of_ne_nil _ (fun hnil => hb (by rw [← e3, hnil]; rfl))]

/-! ### Concrete instances used as test inputs -/

/-- A trivial concrete collaborator over `P = Unit`: the "network" returns its
input as the score matrix, the loss is constantly `0`, the SGD step keeps the
(unit) parameters. -/
def collabC : Collab Unit (List (List ℚ)) :=
  { forward := fun _ x => x, criterion := fun _ _ => 0, sgdStep := fun _ p _ _ => p }

def modelC : ModelState Unit :=
  { params := (), mode := Mode.training }

/-- One batch: a single example with five strictly decreasing class scores and
true label `0`, so both top-1 and top-5 accuracy are `100`. -/
def batchC : List (List ℚ) × List ℕ :=
  ([[4, 3, 2, 1, 0]], [0])

theorem accuracy_batchC_eval : accuracy [[4, 3, 2, 1, 0]] [0] [1, 5] = [100, 100] := by
  have h1 : topkCorrectCount 1 [[4, 3, 2, 1, 0]] [0] = 1 := by decide
  have h5 : topkCorrectCount 5 [[4, 3, 2, 1, 0]] [0] = 1 := by decide
  rw [accuracy_eq_topk_counts _ _ _ (by decide)]
  simp [h1, h5]

/-- The full state at the end of `validate` on the single batch `batchC`. -/
def stC : PassState Unit :=
  { model := { params := (), mode := Mode.evalMode }, losses := [0],
    top1 := [100], top5 := [100],
    events := [Ev.setMode Mode.evalMode, Ev.forwardEv,
      Ev.valLine 0 1 0 0 100 100 100 100, Ev.summaryLine 100 100] }

theorem validate_batchC : validate collabC [batchC] modelC = some (stC, none) := by
  simp [validate, validateLoop, validateStep, initPass, collabC, modelC, batchC,
    accuracy_batchC_eval, runningMean_of_ne_nil, stC]

/-! ### Claims C1, C5, C6 -/

/-- Claim C1, counterexample: at the concrete one-batch input, `validate`
computes the running means (its summary line shows mean top-1 100 and mean
top-5 100) but its Python return value — the second component — is `none`
(Python `None`), not the triple of running means.  The same holds for `train`,
which also has no `return` statement. -/
theorem c1_counterexample :
    validate collabC [batchC] modelC = some (stC, none)
    ∧ stC.events.getLast? = some (Ev.summaryLine 100 100) :=
  ⟨validate_batchC, rfl⟩

/-- Claim C1 (amended): each pass computes the three running means over all
batches of the pass — `validate` emits the final mean top-1/top-5 in its
summary line, whose averages range over exactly one recorded value per batch —
but both `train` and `validate` return Python `None`, not the triple. -/
theorem c1_passes_compute_means_but_return_none {P I : Type} (C : Collab P I)
    (bs : List (I × List ℕ)) (m : ModelState P) (optimizer : Optimizer) (e : ℕ)
    (h : bs ≠ []) :
    (∃ st : PassState P, train C bs m optimizer e = some (st, none))
    ∧ (∃ st : PassState P, validate C bs m = some (st, none)
        ∧ st.events.getLast?
            = some (Ev.summaryLine (st.top1.sum / (st.top1.length : ℚ))
                (st.top5.sum / (st.top5.length : ℚ)))
        ∧ st.losses.length = bs.length ∧ st.top1.length = bs.length
        ∧ st.top5.length = bs.length) := by
  obtain ⟨st, hLoop, hVal, e1, e2, e3, hm⟩ := validate_run C bs m h
  refine ⟨⟨_, train_eq C bs m optimizer e⟩,
    ⟨{ st with events := st.events
        ++ [Ev.summaryLine (st.top1.sum / (st.top1.length : ℚ))
              (st.top5.sum / (st.top5.length : ℚ))] }, hVal, ?_, e1, e2, e3⟩⟩
  simp

theorem c1_passes_compute_means_but_return_none_witness :
    ([batchC] : List (List (List ℚ) × List ℕ)) ≠ []
    ∧ ((∃ st : PassState Unit, train collabC [batchC] modelC optSGD 0 = some (st, none))
      ∧ (∃ st : PassState Unit, validate collabC [batchC] modelC = some (st, none)
          ∧ st.events.getLast?
              = some (Ev.summaryLine (st.top1.sum / (st.top1.length : ℚ))
                  (st.top5.sum / (st.top5.length : ℚ)))
          ∧ st.losses.length = [batchC].length ∧ st.top1.length = [batchC].length
          ∧ st.top5.length = [batchC].length)) :=
  ⟨List.cons_ne_nil _ _,
    c1_passes_compute_means_but_return_none collabC [batchC] modelC optSGD 0
      (List.cons_ne_nil _ _)⟩

/-- Claim C5: the running mean the script computes from a metric list,
`sum(xs) / float(len(xs))`, equals the arithmetic mean of all recorded values
for every non-empty list; in particular it is `4` after recording
`[2, 4, 6]`, and `x` after recording `[x]` alone. -/
theorem c5_running_mean :
    (∀ xs : List ℚ, xs ≠ [] → runningMean xs = some (xs.sum / (xs.length : ℚ)))
    ∧ runningMean [2, 4, 6] = some 4
    ∧ (∀ x : ℚ, runningMean [x] = some x) := by
  refine ⟨runningMean_of_ne_nil, ?_, fun x => ?_⟩
  · rw [runningMean_of_ne_nil _ (List.cons_ne_nil _ _)]
    norm_num
  · rw [runningMean_of_ne_nil _ (List.cons_ne_nil _ _)]
    simp

theorem c5_running_mean_witness :
    ([2, 4, 6] : List ℚ) ≠ []
    ∧ runningMean [2, 4, 6]
        = some (([2, 4, 6] : List ℚ).sum / ((([2, 4, 6] : List ℚ).length : ℕ) : ℚ)) :=
  ⟨List.cons_ne_nil _ _, c5_running_mean.1 [2, 4, 6] (List.cons_ne_nil _ _)⟩

/-- Claim C6, counterexample: a training pass over an empty batch sequence does
not fail — it performs no division at all, because the running means of
`train` are only computed inside the per-batch progress report — and returns
normally.  Only `validate` divides by zero on an empty sequence. -/
theorem c6_counterexample :
    train collabC [] modelC optSGD 0 = some (initPass modelC Mode.training, none) := by
  rw [train_eq]
  rfl

/-- Claim C6 (amended): on an empty batch sequence the validation pass fails
fatally — its final summary line divides the metric sums by the zero length of
the metric lists — while the training pass completes normally without any
division, returning `None` with the metric lists still empty. -/
theorem c6_empty_pass :
    (∀ (P I : Type) (C : Collab P I) (m : ModelState P) (optimizer : Optimizer) (e : ℕ),
      train C ([] : List (I × List ℕ)) m optimizer e
        = some (initPass m Mode.training, none))
    ∧ (∀ (P I : Type) (C : Collab P I) (m : ModelState P),
      validate C ([] : List (I × List ℕ)) m = none) := by
  constructor
  · intro P I C m o e
    rw [train_eq]
    rfl
  · intro P I C m
    exact validate_nil C m

/-! ### Claims C7, C8, C10 -/

/-- Claim C7: during a training pass the per-batch computation events are,
for every batch, exactly one forward pass followed by exactly one gradient
clearing, one back-propagation and one optimizer step, in that order, before
the next batch; the evaluation pass performs none of the three optimizer
operations. -/
theorem c7_gradient_ops {P I : Type} (C : Collab P I) (bs : List (I × List ℕ))
    (m : ModelState P) (optimizer : Optimizer) (e : ℕ) :
    (∃ st : PassState P, train C bs m optimizer e = some (st, none)
      ∧ st.events.filter coreEv
          = (List.replicate bs.length
              [Ev.forwardEv, Ev.zeroGradEv, Ev.backwardEv, Ev.stepEv]).flatten)
    ∧ (∀ (st : PassState P) (r : Option (ℚ × ℚ × ℚ)),
        validate C bs m = some (st, r) → st.events.filter gradEv = []) := by
  constructor
  · refine ⟨_, train_eq C bs m optimizer e, ?_⟩
    rw [trainLoopT_filter_core]
    simp [initPass, coreEv]
  · intro st r hv
    cases bs with
    | nil =>
      rw [validate_nil] at hv
      cases hv
    | cons b bs2 =>
      obtain ⟨stL, hLoop, hVal, _, _, _, _⟩ := validate_run C (b :: bs2) m (List.cons_ne_nil _ _)
      rw [hVal] at hv
      have hpair := Option.some.inj hv
      have hst : ({ stL with events := stL.events
          ++ [Ev.summaryLine (stL.top1.sum / (stL.top1.length : ℚ))
                (stL.top5.sum / (stL.top5.length : ℚ))] } : PassState P) = st :=
        congrArg Prod.fst hpair
      rw [← hst]
      have hstL : stL = validateLoopT C (b :: bs2).length (b :: bs2) 0
          (initPass m Mode.evalMode) :=
        Option.some.inj (hLoop.symm.trans (validateLoop_eq _ _ _ _ _))
      show (stL.events ++ [Ev.summaryLine _ _]).filter gradEv = []
      rw [List.filter_append, hstL, validateLoopT_filter_grad]
      simp [initPass, gradEv]

theorem c7_gradient_ops_witness :
    validate collabC [batchC] modelC = some (stC, none)
    ∧ stC.events.filter gradEv = [] :=
  ⟨validate_batchC,
    (c7_gradient_ops collabC [batchC] modelC optSGD 0).2 stC none validate_batchC⟩

/-- Claim C8: an evaluation pass leaves the trainable parameters of the model
exactly as they were before the pass. -/
theorem c8_validate_preserves_params {P I : Type} (C : Collab P I)
    (bs : List (I × List ℕ)) (m : ModelState P) (st : PassState P)
    (r : Option (ℚ × ℚ × ℚ)) (h : validate C bs m = some (st, r)) :
    st.model.params = m.params := by
  cases bs with
  | nil =>
    rw [validate_nil] at h
    cases h
  | cons b bs2 =>
    obtain ⟨stL, hLoop, hVal, _, _, _, hm⟩ := validate_run C (b :: bs2) m (List.cons_ne_nil _ _)
    rw [hVal] at h
    have hpair := Option.some.inj h
    have hst : ({ stL with events := stL.events
        ++ [Ev.summaryLine (stL.top1.sum / (stL.top1.length : ℚ))
              (stL.top5.sum / (stL.top5.length : ℚ))] } : PassState P) = st :=
      congrArg Prod.fst hpair
    rw [← hst]
    show stL.model.params = m.params
    rw [hm]

theorem c8_validate_preserves_params_witness :
    validate collabC [batchC] modelC = some (stC, none)
    ∧ stC.model.params = modelC.params :=
  ⟨validate_batchC,
    c8_validate_preserves_params collabC [batchC] modelC stC none validate_batchC⟩

/-- Claim C10: after processing any prefix of `n` batches, in either pass, the
three per-batch metric lists all have length exactly `n`: each batch appends
exactly one loss, one top-1 value and one top-5 value. -/
theorem c10_metric_lists_lockstep {P I : Type} (C : Collab P I) (optimizer : Optimizer)
    (e tot : ℕ) (bs : List (I × List ℕ)) (m : ModelState P) (n : ℕ) (hn : n ≤ bs.length) :
    (∃ st : PassState P,
      trainLoop C optimizer e tot (bs.take n) 0 (initPass m Mode.training) = some st
      ∧ st.losses.length = n ∧ st.top1.length = n ∧ st.top5.length = n)
    ∧ (∃ st : PassState P,
      validateLoop C tot (bs.take n) 0 (initPass m Mode.evalMode) = some st
      ∧ st.losses.length = n ∧ st.top1.length = n ∧ st.top5.length = n) := by
  have htk : (bs.take n).length = n := by rw [List.length_take]; omega
  constructor
  · obtain ⟨h1, h2, h3⟩ :=
      trainLoopT_lengths C optimizer e tot (bs.take n) 0 (initPass m Mode.training)
    exact ⟨_, trainLoop_eq _ _ _ _ _ _ _,
      by rw [h1, htk]; simp [initPass],
      by rw [h2, htk]; simp [initPass],
      by rw [h3, htk]; simp [initPass]⟩
  · obtain ⟨h1, h2, h3⟩ :=
      validateLoopT_lengths C tot (bs.take n) 0 (initPass m Mode.evalMode)
    exact ⟨_, validateLoop_eq _ _ _ _ _,
      by rw [h1, htk]; simp [initPass],
      by rw [h2, htk]; simp [initPass],
      by rw [h3, htk]; simp [initPass]⟩

theorem c10_metric_lists_lockstep_witness :
    1 ≤ ([batchC, batchC] : List (List (List ℚ) × List ℕ)).length
    ∧ ((∃ st : PassState Unit,
        trainLoop collabC optSGD 0 2 ([batchC, batchC].take 1) 0
          (initPass modelC Mode.training) = some st
        ∧ st.losses.length = 1 ∧ st.top1.length = 1 ∧ st.top5.length = 1)
      ∧ (∃ st : PassState Unit,
        validateLoop collabC 2 ([batchC, batchC].take 1) 0
          (initPass modelC Mode.evalMode) = some st
        ∧ st.losses.length = 1 ∧ st.top1.length = 1 ∧ st.top5.length = 1)) :=
  ⟨by simp,
    c10_metric_lists_lockstep collabC optSGD 0 2 [batchC, batchC] modelC 1 (by simp)⟩

/-! ### The epoch loop of `main` (src/script.py, lines 154-161)

Per epoch: `adjust_learning_rate(optimizer, epoch)`, then
`train(train_loader, model, criterion, optimizer, epoch)`, then
`validate(test_loader, model, criterion)`.  The orchestrator-level log records
these three calls in program order. -/

inductive OrchEv where
  | adjustCall (epoch : ℕ) (lr : ℚ)
  | trainCall (epoch : ℕ)
  | validateCall
deriving DecidableEq

def runEpoch {P I : Type} (C : Collab P I) (train_loader test_loader : List (I × List ℕ))
    (st : ModelState P × Optimizer × List OrchEv) (epoch : ℕ) :
    Option (ModelState P × Optimizer × List OrchEv) :=
  let optimizer := adjust_learning_rate st.2.1 epoch
  let log1 := st.2.2 ++ [OrchEv.adjustCall epoch (lrValue epoch)]
  (train C train_loader st.1 optimizer epoch).bind (fun tr =>
    let log2 := log1 ++ [OrchEv.trainCall epoch]
    (validate C test_loader tr.1.model).bind (fun vr =>
      some (vr.1.model, optimizer, log2 ++ [OrchEv.validateCall])))

/-- The epoch loop of `main`, without its construction glue:
`for epoch in range(0, 100)` over the epoch body, starting from the freshly
constructed model and SGD optimizer. -/
def mainLoop {P I : Type} (C : Collab P I) (train_loader test_loader : List (I × List ℕ))
    (m : ModelState P) : Option (ModelState P × Optimizer × List OrchEv) :=
  (List.range 100).foldlM (runEpoch C train_loader test_loader) (m, optSGD, [])

theorem runEpoch_eq {P I : Type} (C : Collab P I)
    (train_loader test_loader : List (I × List ℕ)) (h : test_loader ≠ [])
    (m : ModelState P) (o : Optimizer) (log : List OrchEv) (e : ℕ) :
    ∃ m2 : ModelState P,
      runEpoch C train_loader test_loader (m, o, log) e
        = some (m2, adjust_learning_rate o e,
            log ++ [OrchEv.adjustCall e (lrValue e), OrchEv.trainCall e,
              OrchEv.validateCall]) := by
  obtain ⟨st, hLoop, hVal, _, _, _, _⟩ := validate_run C test_loader
    (trainLoopT C (adjust_learning_rate o e) e train_loader.length train_loader 0
      (initPass m Mode.training)).model h
  refine ⟨st.model, ?_⟩
  simp only [runEpoch]
  rw [train_eq, Option.some_bind, hVal, Option.some_bind]
  simp [List.append_assoc]

theorem foldlM_runEpoch {P I : Type} (C : Collab P I)
    (train_loader test_loader : List (I × List ℕ)) (h : test_loader ≠ [])
    (es : List ℕ) : ∀ (m : ModelState P) (o : Optimizer) (log : List OrchEv),
    ∃ (m2 : ModelState P) (o2 : Optimizer),
      List.foldlM (runEpoch C train_loader test_loader) (m, o, log) es
        = some (m2, o2, log ++ (es.map (fun e =>
            [OrchEv.adjustCall e (lrValue e), OrchEv.trainCall e,
              OrchEv.validateCall])).flatten) := by
  induction es with
  | nil =>
    intro m o log
    exact ⟨m, o, by simp [List.foldlM_nil]⟩
  | cons e es ih =>
    intro m o log
    obtain ⟨m2, he⟩ := runEpoch_eq C train_loader test_loader h m o log e
    obtain ⟨m3, o3, hrest⟩ := ih m2 (adjust_learning_rate o e)
      (log ++ [OrchEv.adjustCall e (lrValue e), OrchEv.trainCall e, OrchEv.validateCall])
    refine ⟨m3, o3, ?_⟩
    rw [List.foldlM_cons, he]
    show List.foldlM (runEpoch C train_loader test_loader)
        (m2, adjust_learning_rate o e,
          log ++ [OrchEv.adjustCall e (lrValue e), OrchEv.trainCall e,
            OrchEv.validateCall]) es
      = _
    rw [hrest]
    simp

/-- Claim C9: provided no collaborator raises (the test batch sequence is
non-empty, so `validate` never divides by zero), the orchestrator performs
exactly 100 epochs, for epochs 0 through 99 in increasing order, each epoch
being the call sequence
learning-rate adjustment (to the scheduled rate), training pass, evaluation
pass — with no step skipped and nothing else interleaved. -/
theorem c9_orchestrator_trace {P I : Type} (C : Collab P I)
    (train_loader test_loader : List (I × List ℕ)) (m : ModelState P)
    (h : test_loader ≠ []) :
    ∃ (m2 : ModelState P) (o2 : Optimizer),
      mainLoop C train_loader test_loader m
        = some (m2, o2, ((List.range 100).map (fun e =>
            [OrchEv.adjustCall e (lrValue e), OrchEv.trainCall e,
              OrchEv.validateCall])).flatten) := by
  obtain ⟨m2, o2, hfold⟩ := foldlM_runEpoch C train_loader test_loader h
    (List.range 100) m optSGD []
  exact ⟨m2, o2, by rw [mainLoop, hfold, List.nil_append]⟩

theorem c9_orchestrator_trace_witness :
    ([batchC] : List (List (List ℚ) × List ℕ)) ≠ []
    ∧ ∃ (m2 : ModelState Unit) (o2 : Optimizer),
        mainLoop collabC [batchC] [batchC] modelC
          = some (m2, o2, ((List.range 100).map (fun e =>
              [OrchEv.adjustCall e (lrValue e), OrchEv.trainCall e,
                OrchEv.validateCall])).flatten) :=
  ⟨List.cons_ne_nil _ _,
    c9_orchestrator_trace collabC [batchC] [batchC] modelC (List.cons_ne_nil _ _)⟩

/-! ### Claim C4 -/

/-- Claim C4: every accuracy result lies in `[0, 100]` (for any requested set
of k-values within the class count), and for the `topk = (1, 5)` used by the script the
top-1 accuracy never exceeds the top-5 accuracy once there are at least 5
classes. -/
theorem c4_accuracy_bounds (output : List (List ℚ)) (target : List ℕ)
    (hB : 1 ≤ target.length) (hlen : output.length = target.length) :
    (∀ ks : List ℕ, (∀ row ∈ output, ks.foldr max 0 ≤ row.length) →
      ∀ q ∈ accuracy output target ks, 0 ≤ q ∧ q ≤ 100)
    ∧ ((∀ row ∈ output, 5 ≤ row.length) →
      (accuracy output target [1, 5]).getD 0 0 ≤ (accuracy output target [1, 5]).getD 1 0) := by
  have hBpos : (0 : ℚ) < (target.length : ℚ) := by
    exact_mod_cast Nat.lt_of_lt_of_le Nat.zero_lt_one hB
  have hcount : ∀ k : ℕ, topkCorrectCount k output target ≤ target.length := by
    intro k
    unfold topkCorrectCount
    calc (output.zip target).countP (fun c => decide (c.2 ∈ topkIndices k c.1))
        ≤ (output.zip target).length := List.countP_le_length _
      _ = min output.length target.length := List.length_zip _ _
      _ = target.length := by rw [hlen, min_self]
  constructor
  · intro ks hrows q hq
    rw [accuracy_eq_topk_counts output target ks hrows] at hq
    obtain ⟨k, hkks, rfl⟩ := List.mem_map.mp hq
    constructor
    · positivity
    · have h1 : (topkCorrectCount k output target : ℚ) / (target.length : ℚ) ≤ 1 := by
        rw [div_le_one hBpos]
        exact_mod_cast hcount k
      calc (topkCorrectCount k output target : ℚ) / (target.length : ℚ) * 100
          ≤ 1 * 100 := mul_le_mul_of_nonneg_right h1 (by norm_num)
        _ = 100 := one_mul _
  · intro hrows5
    have hfold : ([1, 5] : List ℕ).foldr max 0 = 5 := rfl
    rw [accuracy_eq_topk_counts output target [1, 5] (by rw [hfold]; exact hrows5)]
    simp only [List.map_cons, List.map_nil, List.getD_cons_zero, List.getD_cons_succ]
    have hcc : topkCorrectCount 1 output target ≤ topkCorrectCount 5 output target := by
      unfold topkCorrectCount
      refine List.countP_mono_left (fun x hx hx1 => ?_)
      simp only [decide_eq_true_eq] at hx1 ⊢
      rw [← topkIndices_take 1 5 (by norm_num) x.1] at hx1
      exact List.take_subset _ _ hx1
    rw [div_eq_mul_inv, div_eq_mul_inv]
    exact mul_le_mul_of_nonneg_right
      (mul_le_mul_of_nonneg_right (by exact_mod_cast hcc)
        (inv_nonneg.mpr (le_of_lt hBpos)))
      (by norm_num)

theorem c4_accuracy_bounds_witness :
    1 ≤ ([4, 3] : List ℕ).length
    ∧ ([[1, 2, 3, 4, 5], [9, 8, 7, 6, 5]] : List (List ℚ)).length = ([4, 3] : List ℕ).length
    ∧ ((∀ ks : List ℕ,
        (∀ row ∈ ([[1, 2, 3, 4, 5], [9, 8, 7, 6, 5]] : List (List ℚ)),
          ks.foldr max 0 ≤ row.length) →
        ∀ q ∈ accuracy [[1, 2, 3, 4, 5], [9, 8, 7, 6, 5]] [4, 3] ks, 0 ≤ q ∧ q ≤ 100)
      ∧ ((∀ row ∈ ([[1, 2, 3, 4, 5], [9, 8, 7, 6, 5]] : List (List ℚ)), 5 ≤ row.length) →
        (accuracy [[1, 2, 3, 4, 5], [9, 8, 7, 6, 5]] [4, 3] [1, 5]).getD 0 0
          ≤ (accuracy [[1, 2, 3, 4, 5], [9, 8, 7, 6, 5]] [4, 3] [1, 5]).getD 1 0)) :=
  ⟨by decide, by decide,
    c4_accuracy_bounds [[1, 2, 3, 4, 5], [9, 8, 7, 6, 5]] [4, 3] (by decide) (by decide)⟩
